import Mathlib

/-!
Shallow embedding of the spaced-repetition schedule generator
(`src/unnamed/part_000`, the `spacedRepetition` core module) and the
iCal calendar export encoder (`src/webapp/src/core/calendarExport.ts`)
of the tv-writer-overlap-explorer repository, together with proofs of
the specified properties.

Modelling conventions:
- A JavaScript `Date` used by the core always sits at local midnight of a
  calendar day (the spec states time-of-day is not semantically meaningful),
  and the spec fixes the simplification that local time equals UTC.  We
  therefore model a `Date` as its integer day number since the Unix epoch
  (1970-01-01 = day 0).  `Date.getTime()` is then `day * 86400000`
  milliseconds and `Date.getDay()` is `(day + 4) % 7` (1970-01-01 was a
  Thursday, weekday index 4; weekday index 0 = Sunday).
- The Gregorian calendar arithmetic performed by the JavaScript `Date`
  runtime (conversion between day numbers and year/month/day triples) is
  embedded with the standard civil-calendar conversion algorithms.
- JavaScript `Array.prototype.sort` with the numeric comparator
  `(a, b) => a.date.getTime() - b.date.getTime()` is a stable ascending
  sort by that key (ECMAScript 2019 requires sort stability); it is
  modelled by `List.mergeSort` with the boolean relation
  `getTime a.date ≤ getTime b.date`.
- `new Map(pairs)` keyed by module id gives, for duplicate keys, the last
  binding; `moduleMapGet` models its `get`.
-/

/-- A calendar date of the core, identified with its epoch day number. -/
abbrev Date := Int

/-- Models `Date.prototype.getTime` for a date at local midnight (UTC locale):
milliseconds since the epoch. -/
def getTime (d : Date) : Int := d * 86400000

/-- Models `Date.prototype.getDay`: weekday index, 0 = Sunday. -/
def getDay (d : Date) : Int := (d + 4) % 7

/-- Gregorian civil date (year, month, day) of an epoch day number; the
standard civil-from-days conversion performed by the JavaScript `Date`
runtime. -/
def civilFromDays (z0 : Int) : Int × Int × Int :=
  let z := z0 + 719468
  let era := Int.fdiv z 146097
  let doe := z - era * 146097
  let yoe := (doe - doe / 1460 + doe / 36524 - doe / 146096) / 365
  let y := yoe + era * 400
  let doy := doe - (365 * yoe + yoe / 4 - yoe / 100)
  let mp := (5 * doy + 2) / 153
  let d := doy - (153 * mp + 2) / 5 + 1
  let m := mp + (if mp < 10 then 3 else -9)
  (y + (if m <= 2 then 1 else 0), m, d)

/-- Epoch day number of a Gregorian civil date; inverse direction of the
runtime's calendar arithmetic, used to name concrete dates in theorems. -/
def daysFromCivil (y0 m d : Int) : Int :=
  let y := y0 - (if m <= 2 then 1 else 0)
  let era := Int.fdiv y 400
  let yoe := y - era * 400
  let doy := (153 * (m + (if m > 2 then -3 else 9)) + 2) / 5 + d - 1
  let doe := yoe * 365 + yoe / 4 - yoe / 100 + doy
  era * 146097 + doe - 719468

/-- Source interface `LearningModule` (`src/unnamed/part_000`). -/
structure LearningModule where
  id : String
  title : String
  chapter : Nat
  concepts : List String
  reviewQuestions : List String
  tutorialAnchor : String
deriving DecidableEq, Repr

/-- Source interface `ScheduledReview` (`src/unnamed/part_000`). -/
structure ScheduledReview where
  moduleId : String
  date : Date
  reviewNumber : Nat
  isInitialLearning : Bool
deriving DecidableEq, Repr

/-- Source interface `LearningSchedule` (`src/unnamed/part_000`). -/
structure LearningSchedule where
  startDate : Date
  modules : List LearningModule
  reviews : List ScheduledReview
deriving DecidableEq, Repr

/-- Source constant `REVIEW_INTERVALS`: the SM-2 based review intervals in
days. -/
def REVIEW_INTERVALS : List Int := [1, 3, 7, 14, 30, 60]

/-- Source function `getTutorialModules`: the hardcoded tutorial modules. -/
def getTutorialModules : List LearningModule :=
  [ { id := "ch1-scraper", title := "Web Scraper", chapter := 1,
      concepts := ["requests library", "BeautifulSoup parsing",
        "JSON file handling", "Rate limiting with sleep()"],
      reviewQuestions :=
        ["What is the purpose of rate limiting when scraping websites?",
         "How does BeautifulSoup find elements by CSS selector?",
         "Why do we save scraped data to JSON files?"],
      tutorialAnchor := "#chapter-1-web-scraper" },
    { id := "ch2-database", title := "Database", chapter := 2,
      concepts := ["SQLite database", "Creating tables with SQL",
        "Junction tables for many-to-many relationships",
        "SQL queries and joins"],
      reviewQuestions :=
        ["What is a junction table and when do you need one?",
         "How do you query data that spans multiple tables?",
         "What are the benefits of using a database over JSON files?"],
      tutorialAnchor := "#chapter-2-database" },
    { id := "ch3-api", title := "API Server", chapter := 3,
      concepts := ["HTTP server with Python", "JSON API responses",
        "CORS headers for web access"],
      reviewQuestions :=
        ["What is CORS and why is it needed for web APIs?",
         "How do you return JSON data from a Python HTTP handler?"],
      tutorialAnchor := "#chapter-3-api" },
    { id := "ch4-frontend", title := "Frontend", chapter := 4,
      concepts := ["React components", "TypeScript types and interfaces",
        "Vite build tool", "useState and useEffect hooks",
        "Props and component composition"],
      reviewQuestions :=
        ["What is the difference between useState and useEffect?",
         "How do TypeScript interfaces help catch bugs?",
         "When should you split code into separate components?"],
      tutorialAnchor := "#chapter-4-frontend" },
    { id := "ch5-testing", title := "Testing", chapter := 5,
      concepts := ["Unit testing with Vitest", "Pure function testing",
        "Test assertions and expectations"],
      reviewQuestions :=
        ["What makes a function easy to test?",
         "How do you structure tests using describe and it blocks?"],
      tutorialAnchor := "#chapter-5-testing" },
    { id := "ch6-deploy", title := "Deployment", chapter := 6,
      concepts := ["Production builds", "GitHub Pages hosting",
        "Static site deployment"],
      reviewQuestions := [],
      tutorialAnchor := "#chapter-6-deploy" } ]

/-- Source function `addDays`: adds days to a date, returning a new date. -/
def addDays (date : Date) (days : Int) : Date := date + days

/-- The seven events `generateSchedule` pushes for the module at catalog
index `index`: one initial learning event at `addDays startDate index`,
then one spaced review per entry of `REVIEW_INTERVALS`. -/
def moduleEvents (startDate : Date) (index : Nat) (module : LearningModule) :
    List ScheduledReview :=
  let learningDate := addDays startDate index
  { moduleId := module.id, date := learningDate, reviewNumber := 0,
    isInitialLearning := true } ::
  REVIEW_INTERVALS.enum.map (fun p =>
    { moduleId := module.id, date := addDays learningDate p.2,
      reviewNumber := p.1 + 1, isInitialLearning := false })

/-- The `modules.forEach` loop body of `generateSchedule`, carrying the
running catalog index: the reviews list in generation order (module index
first, then reviewNumber). -/
def buildReviews (startDate : Date) : Nat → List LearningModule → List ScheduledReview
  | _, [] => []
  | index, module :: rest =>
      moduleEvents startDate index module ++ buildReviews startDate (index + 1) rest

/-- The sort comparator of `generateSchedule`:
`(a, b) => a.date.getTime() - b.date.getTime()`, ascending by time. -/
def reviewLE (a b : ScheduledReview) : Bool :=
  decide (getTime a.date ≤ getTime b.date)

/-- Source function `generateSchedule`: generates the full learning schedule
with initial learning days and spaced reviews, sorted stably by date. -/
def generateSchedule (startDate : Date) (modules : List LearningModule) :
    LearningSchedule :=
  { startDate := startDate, modules := modules,
    reviews := (buildReviews startDate 0 modules).mergeSort reviewLE }

/-- Source function `isSameDay`: whether two dates are the same calendar day
(year, month and day agree). -/
def isSameDay (date1 date2 : Date) : Bool :=
  decide (civilFromDays date1 = civilFromDays date2)

/-- Source function `getReviewsForDate`: all reviews scheduled for a
specific date. -/
def getReviewsForDate (schedule : LearningSchedule) (date : Date) :
    List ScheduledReview :=
  schedule.reviews.filter (fun review => isSameDay review.date date)

/-- Source function `getModuleById`: the first module of the schedule with
the given id, or `none`. -/
def getModuleById (schedule : LearningSchedule) (moduleId : String) :
    Option LearningModule :=
  schedule.modules.find? (fun m => m.id == moduleId)

/-- Models `new Date(ms)` for a millisecond value at local midnight:
recovers the day number. -/
def dateOfTime (t : Int) : Date := Int.fdiv t 86400000

/-- Source function `getScheduleDateRange`: min and max over all review
dates; with no reviews both bounds are `startDate`. -/
def getScheduleDateRange (schedule : LearningSchedule) : Date × Date :=
  match schedule.reviews with
  | [] => (schedule.startDate, schedule.startDate)
  | r :: rs =>
      let rest := rs.map (fun x => getTime x.date)
      (dateOfTime (rest.foldl min (getTime r.date)),
       dateOfTime (rest.foldl max (getTime r.date)))

/-- Source function `generateCalendarDays`: 6 weeks (42 days) starting from
the Sunday beginning the week containing `startDate`. -/
def generateCalendarDays (startDate : Date) : List Date :=
  let firstDayOfGrid := startDate - getDay startDate
  (List.range 42).map (fun i => addDays firstDayOfGrid i)

/-- Source function `getReviewLabel`: display label of a review. -/
def getReviewLabel (review : ScheduledReview) : String :=
  if review.isInitialLearning then "Learn"
  else "Review " ++ toString review.reviewNumber

/-! Calendar export encoder, from `src/webapp/src/core/calendarExport.ts`. -/

/-- Fixed-width decimal digit rendering, most significant digit first; the
digit rendering performed by `Date.prototype.toISOString` for each
timestamp component. -/
def natDigits : Nat → Nat → List Char
  | 0, _ => []
  | w + 1, n => natDigits w (n / 10) ++ [Nat.digitChar (n % 10)]

/-- Source function `formatICSDate`: the event date at 09:00 (the spec's
fixed local-equals-UTC wall clock), rendered by `toISOString` with the
separators removed and the milliseconds suffix replaced by `Z`, giving the
compact form YYYYMMDDTHHMMSSZ. -/
def formatICSDate (date : Date) : String :=
  let c := civilFromDays date
  String.mk (natDigits 4 c.1.toNat ++ natDigits 2 c.2.1.toNat ++
    natDigits 2 c.2.2.toNat ++ ['T'] ++ natDigits 2 9 ++ natDigits 2 0 ++
    natDigits 2 0 ++ ['Z'])

/-- Source function `formatICSDateEnd`: same as `formatICSDate` with the
event end hour 10:00. -/
def formatICSDateEnd (date : Date) : String :=
  let c := civilFromDays date
  String.mk (natDigits 4 c.1.toNat ++ natDigits 2 c.2.1.toNat ++
    natDigits 2 c.2.2.toNat ++ ['T'] ++ natDigits 2 10 ++ natDigits 2 0 ++
    natDigits 2 0 ++ ['Z'])

/-- One pass of JavaScript `String.prototype.replace` with a global
single-character pattern: every occurrence of `c` becomes `rep`. -/
def replaceChar (c : Char) (rep : List Char) : List Char → List Char
  | [] => []
  | x :: xs =>
      if x = c then rep ++ replaceChar c rep xs else x :: replaceChar c rep xs

/-- Source function `escapeICSText`: the four chained global replacements
backslash to double backslash, then semicolon, comma and newline each to
their backslash-prefixed form. -/
def escapeICSText (text : String) : String :=
  String.mk (replaceChar '\n' ['\\', 'n']
    (replaceChar ',' ['\\', ',']
      (replaceChar ';' ['\\', ';']
        (replaceChar '\\' ['\\', '\\'] text.data))))

/-- Source function `generateEventDescription`: the human-readable
multi-line description body for a calendar event. -/
def generateEventDescription (review : ScheduledReview)
    (module : LearningModule) : String :=
  let firstLine :=
    if review.isInitialLearning then
      "Learn Chapter " ++ toString module.chapter ++ ": " ++ module.title
    else
      "Review " ++ toString review.reviewNumber ++ " of 6 for Chapter " ++
        toString module.chapter
  let conceptLines := module.concepts.map (fun concept => "• " ++ concept)
  let questionLines :=
    if module.reviewQuestions.length > 0 then
      ["", "Review questions:"] ++
        module.reviewQuestions.enum.map (fun p =>
          toString (p.1 + 1) ++ ". " ++ p.2)
    else []
  String.intercalate "\n"
    ([firstLine, "", "Concepts to review:"] ++ conceptLines ++ questionLines ++
      ["", "Tutorial: tutorial.html" ++ module.tutorialAnchor])

/-- Source function `generateEventTitle`: review label plus module title. -/
def generateEventTitle (review : ScheduledReview)
    (module : LearningModule) : String :=
  getReviewLabel review ++ ": " ++ module.title

/-- The `uid` string built inside `generateICSEvent`, a function of the
module id, the review number and the date's numeric timestamp. -/
def icsUID (review : ScheduledReview) : String :=
  review.moduleId ++ "-r" ++ toString review.reviewNumber ++ "-" ++
    toString (getTime review.date) ++ "@tvwriter-explorer"

/-- Source function `generateICSEvent`: a single VEVENT block, lines joined
with CRLF. -/
def generateICSEvent (review : ScheduledReview)
    (module : LearningModule) : String :=
  let title := generateEventTitle review module
  let description := generateEventDescription review module
  String.intercalate "\r\n"
    ["BEGIN:VEVENT",
     "DTSTART:" ++ formatICSDate review.date,
     "DTEND:" ++ formatICSDateEnd review.date,
     "SUMMARY:" ++ escapeICSText title,
     "DESCRIPTION:" ++ escapeICSText description,
     "UID:" ++ icsUID review,
     "END:VEVENT"]

/-- Lookup in `new Map(modules.map((m) => [m.id, m]))`: for duplicate ids
the last entry wins, a missing id gives `none`. -/
def moduleMapGet (modules : List LearningModule) (id : String) :
    Option LearningModule :=
  modules.foldl (fun acc m => if m.id == id then some m else acc) none

/-- The `events` array of `generateICSFile`: each review mapped to its
encoded event when its module is found, misses filtered out. -/
def icsEvents (reviews : List ScheduledReview)
    (modules : List LearningModule) : List String :=
  (reviews.map (fun review =>
    (moduleMapGet modules review.moduleId).map (fun module =>
      generateICSEvent review module))).filterMap id

/-- Source function `generateICSFile`: the VCALENDAR envelope around the
encoded events, lines joined with CRLF. -/
def generateICSFile (reviews : List ScheduledReview)
    (modules : List LearningModule) : String :=
  String.intercalate "\r\n"
    (["BEGIN:VCALENDAR", "VERSION:2.0",
      "PRODID:-//TV Writer Explorer//Learning Schedule//EN",
      "CALSCALE:GREGORIAN", "METHOD:PUBLISH"] ++
      icsEvents reviews modules ++ ["END:VCALENDAR"])

/-! Spec-side definitions used to state the claims. -/

/-- The iCal quoting rule for one character, as the spec words it:
backslash is doubled, semicolon and comma are backslash-prefixed, a newline
becomes the two characters backslash-n; every other character is kept. -/
def icsQuoteChar (c : Char) : List Char :=
  if c = '\\' then ['\\', '\\']
  else if c = ';' then ['\\', ';']
  else if c = ',' then ['\\', ',']
  else if c = '\n' then ['\\', 'n']
  else [c]

/-- Decimal value of a digit character. -/
def digitVal (c : Char) : Nat := c.toNat - 48

/-- Decimal number denoted by a digit string, most significant first. -/
def digitsToNat (l : List Char) : Nat :=
  l.foldl (fun a c => 10 * a + digitVal c) 0

/-- Parser for the compact timestamp form YYYYMMDDTHHMMSSZ: checks the
shape and returns (year, month, day, hour, minute, second). -/
def parseICSTimestamp (s : String) : Option (Nat × Nat × Nat × Nat × Nat × Nat) :=
  match s.data with
  | [y1, y2, y3, y4, mo1, mo2, d1, d2, t, h1, h2, mi1, mi2, s1, s2, z] =>
      if t = 'T' ∧ z = 'Z' ∧
          ([y1, y2, y3, y4, mo1, mo2, d1, d2, h1, h2, mi1, mi2, s1, s2].all
            (fun c => c.isDigit)) then
        some (digitsToNat [y1, y2, y3, y4], digitsToNat [mo1, mo2],
          digitsToNat [d1, d2], digitsToNat [h1, h2],
          digitsToNat [mi1, mi2], digitsToNat [s1, s2])
      else none
  | _ => none

/-- Day offset of review number `k` from the global start date of the
module's ladder: 0 for the initial event, then the interval ladder. -/
def totalOffset (k : Nat) : Int := [0, 1, 3, 7, 14, 30, 60].getD k 0

example : buildReviews 10 0 (getTutorialModules.take 1) =
    [⟨"ch1-scraper", 10, 0, true⟩, ⟨"ch1-scraper", 11, 1, false⟩,
     ⟨"ch1-scraper", 13, 2, false⟩, ⟨"ch1-scraper", 17, 3, false⟩,
     ⟨"ch1-scraper", 24, 4, false⟩, ⟨"ch1-scraper", 40, 5, false⟩,
     ⟨"ch1-scraper", 70, 6, false⟩] := by decide

example : daysFromCivil 2026 1 1 = 20454 := by decide

example : civilFromDays 20454 = (2026, 1, 1) := by decide

/-! Helper lemmas. -/

/-- The seven events of one module, evaluated. -/
theorem moduleEvents_eq (sd : Date) (i : Nat) (m : LearningModule) :
    moduleEvents sd i m =
      [{ moduleId := m.id, date := sd + i, reviewNumber := 0, isInitialLearning := true },
       { moduleId := m.id, date := sd + i + 1, reviewNumber := 1, isInitialLearning := false },
       { moduleId := m.id, date := sd + i + 3, reviewNumber := 2, isInitialLearning := false },
       { moduleId := m.id, date := sd + i + 7, reviewNumber := 3, isInitialLearning := false },
       { moduleId := m.id, date := sd + i + 14, reviewNumber := 4, isInitialLearning := false },
       { moduleId := m.id, date := sd + i + 30, reviewNumber := 5, isInitialLearning := false },
       { moduleId := m.id, date := sd + i + 60, reviewNumber := 6, isInitialLearning := false }] :=
  rfl

theorem totalOffset_strictMono : ∀ k1 < 7, ∀ k2 < 7, k1 < k2 →
    totalOffset k1 < totalOffset k2 := by decide

theorem mem_moduleEvents_fields {r : ScheduledReview} {sd : Date} {i : Nat}
    {m : LearningModule} (h : r ∈ moduleEvents sd i m) :
    r.moduleId = m.id ∧ r.reviewNumber ≤ 6 ∧
      r.isInitialLearning = (r.reviewNumber == 0) ∧
      r.date = sd + i + totalOffset r.reviewNumber := by
  rw [moduleEvents_eq] at h
  simp only [List.mem_cons, List.not_mem_nil, or_false] at h
  rcases h with h | h | h | h | h | h | h <;> subst h <;>
    exact ⟨rfl, by simp, rfl, by simp [totalOffset]⟩

theorem mem_buildReviews_iff {r : ScheduledReview} {sd : Date}
    {ms : List LearningModule} {i0 : Nat} :
    r ∈ buildReviews sd i0 ms ↔
      ∃ j, ∃ hj : j < ms.length, r ∈ moduleEvents sd (i0 + j) (ms.get ⟨j, hj⟩) := by
  induction ms generalizing i0 with
  | nil => simp [buildReviews]
  | cons m rest ih =>
      simp only [buildReviews, List.mem_append, ih]
      constructor
      · rintro (h | ⟨j, hj, h⟩)
        · exact ⟨0, by simp, by simpa using h⟩
        · exact ⟨j + 1, by simpa using hj, by
            simpa [Nat.add_assoc, Nat.add_comm 1 j] using h⟩
      · rintro ⟨j, hj, h⟩
        cases j with
        | zero => exact Or.inl (by simpa using h)
        | succ j =>
            exact Or.inr ⟨j, by simpa using hj, by
              simpa [Nat.add_assoc, Nat.add_comm 1 j] using h⟩

theorem buildReviews_length (sd : Date) (ms : List LearningModule) (i0 : Nat) :
    (buildReviews sd i0 ms).length = 7 * ms.length := by
  induction ms generalizing i0 with
  | nil => rfl
  | cons m rest ih =>
      simp only [buildReviews, List.length_append, ih, moduleEvents_eq,
        List.length_cons, List.length_nil]
      omega

theorem countP_moduleEvents (sd : Date) (i : Nat) (m : LearningModule)
    (id : String) :
    (moduleEvents sd i m).countP (fun r => r.moduleId == id) =
      if m.id == id then 7 else 0 := by
  rw [moduleEvents_eq]
  by_cases h : m.id == id <;>
    simp [List.countP_cons, h]

theorem countP_buildReviews (sd : Date) (ms : List LearningModule) (i0 : Nat)
    (id : String) :
    (buildReviews sd i0 ms).countP (fun r => r.moduleId == id) =
      7 * ms.countP (fun m => m.id == id) := by
  induction ms generalizing i0 with
  | nil => rfl
  | cons m rest ih =>
      simp only [buildReviews, List.countP_append, ih, countP_moduleEvents,
        List.countP_cons]
      by_cases h : m.id == id
      · simp only [if_pos h]
        omega
      · simp only [if_neg h]
        omega

/-- The sort relation is transitive. -/
theorem reviewLE_trans (a b c : ScheduledReview) :
    reviewLE a b = true → reviewLE b c = true → reviewLE a c = true := by
  simp only [reviewLE, decide_eq_true_eq]
  exact le_trans

/-- The sort relation is total. -/
theorem reviewLE_total (a b : ScheduledReview) :
    (reviewLE a b || reviewLE b a) = true := by
  simp only [reviewLE, Bool.or_eq_true, decide_eq_true_eq]
  exact le_total _ _

theorem reviews_generateSchedule (sd : Date) (ms : List LearningModule) :
    (generateSchedule sd ms).reviews = (buildReviews sd 0 ms).mergeSort reviewLE :=
  rfl

/-! Claim C8. -/

/-- C8: for every anchor date, `generateCalendarDays` returns exactly 42
consecutive dates, the first being the anchor minus its weekday index,
which has weekday index 0 (Sunday) and is at most the anchor. -/
theorem generateCalendarDays_grid (anchor : Date) :
    generateCalendarDays anchor =
        (List.range 42).map (fun i => (anchor - getDay anchor) + i)
      ∧ getDay (anchor - getDay anchor) = 0
      ∧ anchor - getDay anchor ≤ anchor := by
  refine ⟨rfl, ?_, ?_⟩
  · simp only [getDay]
    omega
  · simp only [getDay]
    exact sub_le_self _ (Int.emod_nonneg _ (by decide))

/-! Claim C9. -/

/-- C9: degenerate empty inputs yield defined zero results: an empty module
list gives a schedule with no reviews, a schedule without reviews has both
date-range bounds equal to its start date, and a date matching no review
gives an empty review list. -/
theorem emptyInputs_defined :
    (∀ startDate : Date, (generateSchedule startDate []).reviews = [])
  ∧ (∀ schedule : LearningSchedule, schedule.reviews = [] →
      getScheduleDateRange schedule = (schedule.startDate, schedule.startDate))
  ∧ (∀ (schedule : LearningSchedule) (date : Date),
      (∀ r ∈ schedule.reviews, isSameDay r.date date = false) →
      getReviewsForDate schedule date = []) := by
  refine ⟨?_, ?_, ?_⟩
  · intro startDate
    rw [reviews_generateSchedule]
    exact List.mergeSort_nil
  · intro schedule h
    simp [getScheduleDateRange, h]
  · intro schedule date h
    simpa [getReviewsForDate, List.filter_eq_nil_iff] using h

/-- Witness for C9 at concrete inputs. -/
theorem emptyInputs_defined_witness :
    (generateSchedule 20454 []).reviews = []
  ∧ getScheduleDateRange { startDate := 7, modules := [], reviews := [] } = (7, 7)
  ∧ getReviewsForDate { startDate := 0, modules := [], reviews := [] } 20454 = [] :=
  ⟨emptyInputs_defined.1 20454,
   emptyInputs_defined.2.1 _ rfl,
   emptyInputs_defined.2.2 _ 20454 (by simp)⟩

/-! Claim C6. -/

/-- C6: `generateICSFile` is deterministic (identical inputs give identical
output strings), and the per-event unique identifier depends only on the
module id, the review number and the date's numeric timestamp. -/
theorem encodeFile_deterministic :
    (∀ (reviews1 reviews2 : List ScheduledReview)
        (modules1 modules2 : List LearningModule),
        reviews1 = reviews2 → modules1 = modules2 →
        generateICSFile reviews1 modules1 = generateICSFile reviews2 modules2)
  ∧ (∀ r1 r2 : ScheduledReview, r1.moduleId = r2.moduleId →
      r1.reviewNumber = r2.reviewNumber → r1.date = r2.date →
      icsUID r1 = icsUID r2) := by
  constructor
  · rintro reviews1 _ modules1 _ rfl rfl
    rfl
  · intro r1 r2 h1 h2 h3
    unfold icsUID getTime
    rw [h1, h2, h3]

/-- Witness for C6: same logical event, different derived flag, same UID. -/
theorem encodeFile_deterministic_witness :
    generateICSFile [⟨"ch1-scraper", 20454, 0, true⟩] getTutorialModules =
      generateICSFile [⟨"ch1-scraper", 20454, 0, true⟩] getTutorialModules
  ∧ icsUID ⟨"ch1-scraper", 20454, 3, false⟩ =
      icsUID ⟨"ch1-scraper", 20454, 3, true⟩ :=
  ⟨encodeFile_deterministic.1 _ _ _ _ rfl rfl,
   encodeFile_deterministic.2 _ _ rfl rfl rfl⟩

/-! Claim C7. -/

theorem moduleMapGet_isSome (modules : List LearningModule) (id : String) :
    (moduleMapGet modules id).isSome = modules.any (fun m => m.id == id) := by
  unfold moduleMapGet
  suffices h : ∀ acc : Option LearningModule,
      (modules.foldl (fun acc m => if m.id == id then some m else acc) acc).isSome
        = (acc.isSome || modules.any (fun m => m.id == id)) by
    simpa using h none
  induction modules with
  | nil => intro acc; simp
  | cons m rest ih =>
      intro acc
      simp only [List.foldl_cons, List.any_cons, ih]
      by_cases h : m.id == id <;> simp [h]

theorem icsEvents_length_eq (reviews : List ScheduledReview)
    (modules : List LearningModule) :
    (icsEvents reviews modules).length =
      (reviews.filter (fun r => (moduleMapGet modules r.moduleId).isSome)).length := by
  simp only [icsEvents, List.filterMap_map]
  induction reviews with
  | nil => rfl
  | cons r rs ih =>
      simp only [List.filterMap_cons, List.filter_cons, Function.comp]
      cases h : moduleMapGet modules r.moduleId <;>
        simp_all [Function.comp]

/-- C7: a missing module id is a non-fatal lookup miss: `getModuleById`
returns `none` exactly when no module has the id, the file encoder's map
lookup succeeds exactly when some module has the id, and the encoded event
list has exactly one entry per review whose module id is found. -/
theorem lookupMiss_lenient :
    (∀ (schedule : LearningSchedule) (moduleId : String),
        getModuleById schedule moduleId = none ↔
          ∀ m ∈ schedule.modules, m.id ≠ moduleId)
  ∧ (∀ (modules : List LearningModule) (id : String),
        (moduleMapGet modules id).isSome = true ↔ ∃ m ∈ modules, m.id = id)
  ∧ (∀ (reviews : List ScheduledReview) (modules : List LearningModule),
        (icsEvents reviews modules).length =
          (reviews.filter (fun r => (moduleMapGet modules r.moduleId).isSome)).length) := by
  refine ⟨?_, ?_, icsEvents_length_eq⟩
  · intro schedule moduleId
    unfold getModuleById
    rw [List.find?_eq_none]
    simp
  · intro modules id
    rw [moduleMapGet_isSome]
    simp [List.any_eq_true]

/-- Witness for C7: a dangling review is skipped, a matched one is kept. -/
theorem lookupMiss_lenient_witness :
    (getModuleById ⟨0, getTutorialModules, []⟩ "no-such-id" = none ↔
      ∀ m ∈ getTutorialModules, m.id ≠ "no-such-id")
  ∧ (icsEvents [⟨"no-such-id", 0, 0, true⟩, ⟨"ch1-scraper", 0, 0, true⟩]
        getTutorialModules).length =
      ([(⟨"no-such-id", 0, 0, true⟩ : ScheduledReview),
        ⟨"ch1-scraper", 0, 0, true⟩].filter
        (fun r : ScheduledReview =>
          (moduleMapGet getTutorialModules r.moduleId).isSome)).length :=
  ⟨lookupMiss_lenient.1 _ _, lookupMiss_lenient.2.2 _ _⟩

/-! Claim C4. -/

theorem replaceChar_eq_flatMap (c : Char) (rep : List Char) (l : List Char) :
    replaceChar c rep l = l.flatMap (fun x => if x = c then rep else [x]) := by
  induction l with
  | nil => rfl
  | cons x xs ih =>
      simp only [replaceChar, List.flatMap_cons]
      split <;> simp [ih]

theorem escapeICSText_eq (s : String) :
    escapeICSText s = String.mk (s.data.flatMap icsQuoteChar) := by
  unfold escapeICSText
  rw [replaceChar_eq_flatMap, replaceChar_eq_flatMap, replaceChar_eq_flatMap,
    replaceChar_eq_flatMap, List.flatMap_assoc, List.flatMap_assoc,
    List.flatMap_assoc]
  refine congrArg String.mk (List.flatMap_congr ?_)
  intro x _
  by_cases h1 : x = '\\'
  · subst h1; rfl
  by_cases h2 : x = ';'
  · subst h2; rfl
  by_cases h3 : x = ','
  · subst h3; rfl
  by_cases h4 : x = '\n'
  · subst h4; rfl
  simp [h1, h2, h3, h4, icsQuoteChar]

/-- C4: the text escaping of the single-event encoder agrees character by
character with the iCal quoting rule (backslash doubled, semicolon and
comma backslash-prefixed, newline rendered as backslash-n), the escaped
text contains no raw newline that could terminate a field early, and the
SUMMARY and DESCRIPTION fields of the encoded event carry exactly the
escaped title and description. -/
theorem escapeICSText_correct :
    (∀ s : String, escapeICSText s = String.mk (s.data.flatMap icsQuoteChar))
  ∧ (∀ s : String, '\n' ∉ (escapeICSText s).data)
  ∧ (∀ (review : ScheduledReview) (module : LearningModule),
      generateICSEvent review module = String.intercalate "\r\n"
        ["BEGIN:VEVENT",
         "DTSTART:" ++ formatICSDate review.date,
         "DTEND:" ++ formatICSDateEnd review.date,
         "SUMMARY:" ++ String.mk
           ((generateEventTitle review module).data.flatMap icsQuoteChar),
         "DESCRIPTION:" ++ String.mk
           ((generateEventDescription review module).data.flatMap icsQuoteChar),
         "UID:" ++ icsUID review,
         "END:VEVENT"]) := by
  refine ⟨escapeICSText_eq, ?_, ?_⟩
  · intro s
    rw [escapeICSText_eq]
    intro hmem
    rw [show (String.mk (s.data.flatMap icsQuoteChar)).data
          = s.data.flatMap icsQuoteChar from rfl, List.mem_flatMap] at hmem
    obtain ⟨x, _, hx⟩ := hmem
    unfold icsQuoteChar at hx
    split_ifs at hx with h1 h2 h3 h4 <;>
      simp only [List.mem_cons, List.not_mem_nil, or_false] at hx
    · rcases hx with h | h <;> exact absurd h (by decide)
    · rcases hx with h | h <;> exact absurd h (by decide)
    · rcases hx with h | h <;> exact absurd h (by decide)
    · rcases hx with h | h <;> exact absurd h (by decide)
    · exact h4 hx.symm
  · intro review module
    simp only [generateICSEvent, escapeICSText_eq]

/-! Claim C1. -/

/-- C1: the module at catalog index `i` gets a reviewNumber-0 event dated
`startDate + i` days, and for each `k` in 1..6 a reviewNumber-`k` event
dated its own day-0 date plus the k-th interval of the ladder
(1, 3, 7, 14, 30, 60). -/
theorem generateSchedule_dates (startDate : Date) (modules : List LearningModule)
    (i : Nat) (hi : i < modules.length) :
    (⟨(modules.get ⟨i, hi⟩).id, addDays startDate i, 0, true⟩ : ScheduledReview) ∈
      (generateSchedule startDate modules).reviews
  ∧ ∀ k : Nat, 1 ≤ k → k ≤ 6 →
      (⟨(modules.get ⟨i, hi⟩).id,
        addDays (addDays startDate i) (REVIEW_INTERVALS.getD (k - 1) 0),
        k, false⟩ : ScheduledReview) ∈
      (generateSchedule startDate modules).reviews := by
  constructor
  · rw [reviews_generateSchedule, List.mem_mergeSort, mem_buildReviews_iff]
    refine ⟨i, hi, ?_⟩
    rw [Nat.zero_add, moduleEvents_eq]
    exact List.mem_cons_self _ _
  · intro k hk1 hk6
    rw [reviews_generateSchedule, List.mem_mergeSort, mem_buildReviews_iff]
    refine ⟨i, hi, ?_⟩
    rw [Nat.zero_add, moduleEvents_eq]
    interval_cases k
    · exact List.mem_cons_of_mem _ (List.mem_cons_self _ _)
    · exact List.mem_cons_of_mem _ (List.mem_cons_of_mem _ (List.mem_cons_self _ _))
    · exact List.mem_cons_of_mem _ (List.mem_cons_of_mem _
        (List.mem_cons_of_mem _ (List.mem_cons_self _ _)))
    · exact List.mem_cons_of_mem _ (List.mem_cons_of_mem _ (List.mem_cons_of_mem _
        (List.mem_cons_of_mem _ (List.mem_cons_self _ _))))
    · exact List.mem_cons_of_mem _ (List.mem_cons_of_mem _ (List.mem_cons_of_mem _
        (List.mem_cons_of_mem _ (List.mem_cons_of_mem _ (List.mem_cons_self _ _)))))
    · exact List.mem_cons_of_mem _ (List.mem_cons_of_mem _ (List.mem_cons_of_mem _
        (List.mem_cons_of_mem _ (List.mem_cons_of_mem _
          (List.mem_cons_of_mem _ (List.mem_cons_self _ _))))))

/-- Witness for C1, the spec's concrete scenario: start 2026-01-01 with a
2-module catalog; module 0's initial date is 2026-01-01, module 0's
reviewNumber-3 date is 2026-01-08, module 1's initial date is 2026-01-02. -/
theorem generateSchedule_dates_witness :
    (⟨"ch1-scraper", daysFromCivil 2026 1 1, 0, true⟩ : ScheduledReview) ∈
      (generateSchedule (daysFromCivil 2026 1 1) (getTutorialModules.take 2)).reviews
  ∧ (⟨"ch1-scraper", daysFromCivil 2026 1 8, 3, false⟩ : ScheduledReview) ∈
      (generateSchedule (daysFromCivil 2026 1 1) (getTutorialModules.take 2)).reviews
  ∧ (⟨"ch2-database", daysFromCivil 2026 1 2, 0, true⟩ : ScheduledReview) ∈
      (generateSchedule (daysFromCivil 2026 1 1) (getTutorialModules.take 2)).reviews := by
  have h0 := generateSchedule_dates (daysFromCivil 2026 1 1)
    (getTutorialModules.take 2) 0 (by decide)
  have h1 := generateSchedule_dates (daysFromCivil 2026 1 1)
    (getTutorialModules.take 2) 1 (by decide)
  refine ⟨?_, ?_, ?_⟩
  · have e : (⟨"ch1-scraper", daysFromCivil 2026 1 1, 0, true⟩ : ScheduledReview)
        = ⟨((getTutorialModules.take 2).get ⟨0, by decide⟩).id,
           addDays (daysFromCivil 2026 1 1) (0 : Nat), 0, true⟩ := by decide
    rw [e]
    exact h0.1
  · have e : (⟨"ch1-scraper", daysFromCivil 2026 1 8, 3, false⟩ : ScheduledReview)
        = ⟨((getTutorialModules.take 2).get ⟨0, by decide⟩).id,
           addDays (addDays (daysFromCivil 2026 1 1) (0 : Nat))
             (REVIEW_INTERVALS.getD (3 - 1) 0), 3, false⟩ := by decide
    rw [e]
    exact h0.2 3 (by decide) (by decide)
  · have e : (⟨"ch2-database", daysFromCivil 2026 1 2, 0, true⟩ : ScheduledReview)
        = ⟨((getTutorialModules.take 2).get ⟨1, by decide⟩).id,
           addDays (daysFromCivil 2026 1 1) (1 : Nat), 0, true⟩ := by decide
    rw [e]
    exact h1.1

/-! Claim C2. -/

/-- C2: with the catalog invariant that module ids are unique, a
generated schedule has `7 × |modules|` reviews in total, exactly 7 per
module, every review has a review number at most 6 with
`isInitialLearning` equal to `reviewNumber == 0`, and within one module
dates are strictly increasing with the review number. -/
theorem generateSchedule_invariants (sd : Date) (modules : List LearningModule)
    (hnodup : (modules.map (fun m => m.id)).Nodup) :
    (generateSchedule sd modules).reviews.length = 7 * modules.length
  ∧ (∀ m ∈ modules,
      (generateSchedule sd modules).reviews.countP
        (fun r => r.moduleId == m.id) = 7)
  ∧ (∀ r ∈ (generateSchedule sd modules).reviews,
      r.reviewNumber ≤ 6 ∧ r.isInitialLearning = (r.reviewNumber == 0))
  ∧ (∀ r1 ∈ (generateSchedule sd modules).reviews,
      ∀ r2 ∈ (generateSchedule sd modules).reviews,
      r1.moduleId = r2.moduleId → r1.reviewNumber < r2.reviewNumber →
      r1.date < r2.date) := by
  refine ⟨?_, ?_, ?_, ?_⟩
  · rw [reviews_generateSchedule, List.length_mergeSort, buildReviews_length]
  · intro m hm
    rw [reviews_generateSchedule,
      (List.mergeSort_perm (buildReviews sd 0 modules) reviewLE).countP_eq,
      countP_buildReviews]
    have hmem : m.id ∈ modules.map (fun x => x.id) := List.mem_map_of_mem _ hm
    have hone := List.count_eq_one_of_mem hnodup hmem
    have h2 : modules.countP (fun x => x.id == m.id) = 1 := by
      simpa [List.count, List.countP_map, Function.comp] using hone
    rw [h2]
  · intro r hr
    rw [reviews_generateSchedule, List.mem_mergeSort, mem_buildReviews_iff] at hr
    obtain ⟨j, hj, hr⟩ := hr
    have hf := mem_moduleEvents_fields hr
    exact ⟨hf.2.1, hf.2.2.1⟩
  · intro r1 hr1 r2 hr2 hid hlt
    rw [reviews_generateSchedule, List.mem_mergeSort, mem_buildReviews_iff] at hr1 hr2
    obtain ⟨j1, hj1, h1⟩ := hr1
    obtain ⟨j2, hj2, h2⟩ := hr2
    have hf1 := mem_moduleEvents_fields h1
    have hf2 := mem_moduleEvents_fields h2
    have hids : (modules.get ⟨j1, hj1⟩).id = (modules.get ⟨j2, hj2⟩).id := by
      rw [← hf1.1, ← hf2.1, hid]
    have hj1m : j1 < (modules.map (fun x => x.id)).length := by
      simpa [List.length_map] using hj1
    have hj2m : j2 < (modules.map (fun x => x.id)).length := by
      simpa [List.length_map] using hj2
    have hgets : (modules.map (fun x => x.id)).get ⟨j1, hj1m⟩
        = (modules.map (fun x => x.id)).get ⟨j2, hj2m⟩ := by
      rw [List.get_map, List.get_map]
      exact hids
    have hj12 : j1 = j2 :=
      congrArg Fin.val ((hnodup.get_inj_iff).mp hgets)
    subst hj12
    rw [hf1.2.2.2, hf2.2.2.2]
    exact add_lt_add_left
      (totalOffset_strictMono r1.reviewNumber (by omega) r2.reviewNumber
        (by omega) hlt) _

/-- Witness for C2 on the tutorial catalog, whose ids are unique. -/
theorem generateSchedule_invariants_witness :
    (generateSchedule 20454 getTutorialModules).reviews.length =
      7 * getTutorialModules.length :=
  (generateSchedule_invariants 20454 getTutorialModules (by decide)).1

/-! Claim C3. -/

/-- C3: the reviews of a generated schedule are sorted non-decreasing by
date, and among equal-date reviews the original generation order (module
index first, then review number) is preserved: filtering the sorted list
to any fixed date gives exactly the same-date reviews in generation
order. -/
theorem generateSchedule_sorted_stable (startDate : Date)
    (modules : List LearningModule) :
    List.Pairwise (fun a b => a.date ≤ b.date)
      (generateSchedule startDate modules).reviews
  ∧ ∀ d : Date,
      (generateSchedule startDate modules).reviews.filter
          (fun r => r.date == d)
        = (buildReviews startDate 0 modules).filter (fun r => r.date == d) := by
  constructor
  · rw [reviews_generateSchedule]
    refine (List.sorted_mergeSort reviewLE_trans reviewLE_total
      (buildReviews startDate 0 modules)).imp ?_
    intro a b h
    have hle : getTime a.date * 1 ≤ getTime b.date * 1 := by
      simpa [reviewLE] using h
    have : a.date * 86400000 ≤ b.date * 86400000 := by
      simpa [getTime] using hle
    exact le_of_mul_le_mul_right this (by norm_num)
  · intro d
    have hpair : List.Pairwise (fun a b => reviewLE a b = true)
        ((buildReviews startDate 0 modules).filter (fun r => r.date == d)) := by
      refine List.pairwise_of_forall_mem_list ?_
      intro a ha b hb
      rw [List.mem_filter] at ha hb
      have ha2 : a.date = d := by simpa using ha.2
      have hb2 : b.date = d := by simpa using hb.2
      simp [reviewLE, getTime, ha2, hb2]
    have hsub : ((buildReviews startDate 0 modules).filter
          (fun r => r.date == d)).Sublist
        ((buildReviews startDate 0 modules).mergeSort reviewLE) :=
      List.sublist_mergeSort reviewLE_trans reviewLE_total hpair
        (List.filter_sublist (buildReviews startDate 0 modules))
    have hsub2 : ((buildReviews startDate 0 modules).filter
          (fun r => r.date == d)).Sublist
        (((buildReviews startDate 0 modules).mergeSort reviewLE).filter
          (fun r => r.date == d)) := by
      have h2 := hsub.filter (fun r => r.date == d)
      simpa [List.filter_filter] using h2
    have hlen : (((buildReviews startDate 0 modules).mergeSort
          reviewLE).filter (fun r => r.date == d)).length
        = ((buildReviews startDate 0 modules).filter
          (fun r => r.date == d)).length := by
      rw [← List.countP_eq_length_filter, ← List.countP_eq_length_filter]
      exact (List.mergeSort_perm (buildReviews startDate 0 modules)
        reviewLE).countP_eq _
    rw [reviews_generateSchedule]
    exact (hsub2.eq_of_length hlen.symm).symm

/-! Claim C5. -/

theorem length_natDigits (w n : Nat) : (natDigits w n).length = w := by
  induction w generalizing n with
  | zero => rfl
  | succ w ih => simp [natDigits, ih]

theorem all_natDigits_isDigit (w n : Nat) :
    ∀ c ∈ natDigits w n, c.isDigit = true := by
  induction w generalizing n with
  | zero => intro c hc; simp [natDigits] at hc
  | succ w ih =>
      intro c hc
      simp only [natDigits, List.mem_append, List.mem_singleton] at hc
      rcases hc with hc | hc
      · exact ih _ _ hc
      · subst hc
        have hall : ∀ r < 10, (Nat.digitChar r).isDigit = true := by decide
        exact hall _ (Nat.mod_lt _ (by decide))

theorem digitsToNat_append_singleton (l : List Char) (c : Char) :
    digitsToNat (l ++ [c]) = 10 * digitsToNat l + digitVal c := by
  unfold digitsToNat
  rw [List.foldl_append]
  rfl

theorem digitsToNat_natDigits (w n : Nat) (h : n < 10 ^ w) :
    digitsToNat (natDigits w n) = n := by
  induction w generalizing n with
  | zero =>
      rw [pow_zero] at h
      obtain rfl : n = 0 := by omega
      rfl
  | succ w ih =>
      have hdiv : n / 10 < 10 ^ w := by
        rw [pow_succ] at h
        omega
      have hmod : digitVal (Nat.digitChar (n % 10)) = n % 10 := by
        have hall : ∀ r < 10, digitVal (Nat.digitChar r) = r := by decide
        exact hall _ (Nat.mod_lt _ (by decide))
      rw [show natDigits (w + 1) n
          = natDigits w (n / 10) ++ [Nat.digitChar (n % 10)] from rfl,
        digitsToNat_append_singleton, ih _ hdiv, hmod]
      omega

theorem list_len_two : ∀ l : List Char, l.length = 2 → ∃ a b, l = [a, b]
  | [a, b], _ => ⟨a, b, rfl⟩
  | [], h => by simp at h
  | [_], h => by simp at h
  | _ :: _ :: _ :: t, h => by simp only [List.length_cons] at h; omega

theorem list_len_four : ∀ l : List Char, l.length = 4 → ∃ a b c d, l = [a, b, c, d]
  | [a, b, c, d], _ => ⟨a, b, c, d, rfl⟩
  | [], h => by simp at h
  | [_], h => by simp at h
  | [_, _], h => by simp at h
  | [_, _, _], h => by simp at h
  | _ :: _ :: _ :: _ :: _ :: t, h => by simp only [List.length_cons] at h; omega

/-- Parsing a compact timestamp built from in-range components recovers
exactly those components. -/
theorem parse_format (a b c hh mm ss : Nat) (ha : a < 10 ^ 4) (hb : b < 10 ^ 2)
    (hc : c < 10 ^ 2) (hhh : hh < 10 ^ 2) (hmm : mm < 10 ^ 2) (hss : ss < 10 ^ 2) :
    parseICSTimestamp (String.mk (natDigits 4 a ++ natDigits 2 b ++
        natDigits 2 c ++ ['T'] ++ natDigits 2 hh ++ natDigits 2 mm ++
        natDigits 2 ss ++ ['Z'])) = some (a, b, c, hh, mm, ss) := by
  obtain ⟨a1, a2, a3, a4, hA⟩ := list_len_four _ (length_natDigits 4 a)
  obtain ⟨b1, b2, hB⟩ := list_len_two _ (length_natDigits 2 b)
  obtain ⟨c1, c2, hC⟩ := list_len_two _ (length_natDigits 2 c)
  obtain ⟨h1, h2, hH⟩ := list_len_two _ (length_natDigits 2 hh)
  obtain ⟨m1, m2, hM⟩ := list_len_two _ (length_natDigits 2 mm)
  obtain ⟨s1, s2, hS⟩ := list_len_two _ (length_natDigits 2 ss)
  have dA := all_natDigits_isDigit 4 a
  have dB := all_natDigits_isDigit 2 b
  have dC := all_natDigits_isDigit 2 c
  have dH := all_natDigits_isDigit 2 hh
  have dM := all_natDigits_isDigit 2 mm
  have dS := all_natDigits_isDigit 2 ss
  rw [hA] at dA; rw [hB] at dB; rw [hC] at dC
  rw [hH] at dH; rw [hM] at dM; rw [hS] at dS
  rw [hA, hB, hC, hH, hM, hS]
  show parseICSTimestamp (String.mk
    [a1, a2, a3, a4, b1, b2, c1, c2, 'T', h1, h2, m1, m2, s1, s2, 'Z']) = _
  unfold parseICSTimestamp
  simp only []
  rw [if_pos]
  · rw [← hA, ← hB, ← hC, ← hH, ← hM, ← hS,
      digitsToNat_natDigits 4 a ha, digitsToNat_natDigits 2 b hb,
      digitsToNat_natDigits 2 c hc, digitsToNat_natDigits 2 hh hhh,
      digitsToNat_natDigits 2 mm hmm, digitsToNat_natDigits 2 ss hss]
  · refine ⟨trivial, trivial, ?_⟩
    simp only [List.all_cons, List.all_nil, Bool.and_eq_true]
    exact ⟨dA _ (by simp), dA _ (by simp), dA _ (by simp), dA _ (by simp),
      dB _ (by simp), dB _ (by simp), dC _ (by simp), dC _ (by simp),
      dH _ (by simp), dH _ (by simp), dM _ (by simp), dM _ (by simp),
      dS _ (by simp), dS _ (by simp), trivial⟩

/-- C5: parsing the DTSTART and DTEND compact timestamps of an encoded
event recovers exactly 09:00 and 10:00 on the review date's own calendar
day (year, month, day as given by the calendar conversion of the date). -/
theorem ics_timestamp_roundtrip (date : Date) (y m d : Int)
    (hciv : civilFromDays date = (y, m, d))
    (hy0 : 0 ≤ y) (hy : y < 10000) (hm0 : 0 ≤ m) (hm : m < 100)
    (hd0 : 0 ≤ d) (hd : d < 100) :
    parseICSTimestamp (formatICSDate date)
        = some (y.toNat, m.toNat, d.toNat, 9, 0, 0)
  ∧ parseICSTimestamp (formatICSDateEnd date)
        = some (y.toNat, m.toNat, d.toNat, 10, 0, 0) := by
  constructor
  · unfold formatICSDate
    rw [hciv]
    exact parse_format y.toNat m.toNat d.toNat 9 0 0 (by omega) (by omega)
      (by omega) (by omega) (by omega) (by omega)
  · unfold formatICSDateEnd
    rw [hciv]
    exact parse_format y.toNat m.toNat d.toNat 10 0 0 (by omega) (by omega)
      (by omega) (by omega) (by omega) (by omega)

/-- Witness for C5 at 2026-01-08 (epoch day 20461). -/
theorem ics_timestamp_roundtrip_witness :
    civilFromDays 20461 = (2026, 1, 8)
  ∧ parseICSTimestamp (formatICSDate 20461) = some (2026, 1, 8, 9, 0, 0)
  ∧ parseICSTimestamp (formatICSDateEnd 20461) = some (2026, 1, 8, 10, 0, 0) := by
  have h := ics_timestamp_roundtrip 20461 2026 1 8 (by decide) (by decide)
    (by decide) (by decide) (by decide) (by decide) (by decide)
  exact ⟨by decide, h.1, h.2⟩
